import Mathlib

/-!
Shallow embedding of `src/zotero_downloader.py` (class `ZoteroDownloader`).

Python dictionaries holding Zotero item fields are embedded as a structure of
optional fields (`.get(k)` returning `None` becomes `Option.none`; the dict
membership test `'parentItem' not in item['data']` becomes `parentItem = none`).
External effects (the Zotero HTTP client, the filesystem) are passed in
explicitly: the fetched item feed and per-item children are `Except`/function
parameters, the target directory is the list of filenames it currently
contains, and the timestamp parser `datetime.fromisoformat ∘ replace`
(a Python standard-library call, external to the repository) is an explicit
`String → Option Int` parameter mapping a date string to a point on a linear
time axis.
-/

namespace Zotero

/-- Fields of the `data` dictionary of a Zotero item, as used by the code.
Absent keys are `none`. -/
structure ItemData where
  title : Option String := none
  dateAdded : Option String := none
  parentItem : Option String := none
  itemType : Option String := none
  linkMode : Option String := none
  contentType : Option String := none
  filename : Option String := none
deriving DecidableEq

/-- A Zotero item: a `key` plus its `data` dictionary. -/
structure Item where
  key : String
  data : ItemData
deriving DecidableEq

/-! ## Recency selector: `get_recent_items` (lines 27–75) -/

/-- Log line printed by the `except ValueError` branch at line 72. -/
def couldNotParseMsg (s : String) : String :=
  "Could not parse date: " ++ s

/-- Result of the scan loop: the collected `recent_items` together with the
log lines printed while scanning. -/
structure ScanResult where
  items : List Item
  log : List String
deriving DecidableEq

/-- The `for item in items` loop of `get_recent_items` (lines 50–73).
`parse` embeds `datetime.fromisoformat(s.replace('Z','+00:00'))` followed by
`replace(tzinfo=None)`; a `ValueError` is `none`.  `seen` is the running
`seen_keys` list. -/
def scanItems (parse : String → Option Int) (cutoff : Int) :
    List Item → List String → ScanResult
  | [], _ => ⟨[], []⟩
  | item :: rest, seen =>
    let s := item.data.dateAdded.getD ""
    if s = "" then
      -- `if date_added_str:` is false: the entry is skipped with no output
      scanItems parse cutoff rest seen
    else
      match parse s with
      | none =>
        -- `except ValueError`: print and continue
        let r := scanItems parse cutoff rest seen
        ⟨r.items, couldNotParseMsg s :: r.log⟩
      | some d =>
        if cutoff ≤ d then
          if item.data.parentItem = none then
            if item.key ∈ seen then
              scanItems parse cutoff rest seen
            else
              let r := scanItems parse cutoff rest (item.key :: seen)
              ⟨item :: r.items, r.log⟩
          else
            scanItems parse cutoff rest seen
        else
          -- items are sorted by dateAdded desc, so `break`
          ⟨[], []⟩

/-- `get_recent_items` (lines 27–75): `fetched` is the outcome of
`self.zot.items(limit=100, sort='dateAdded', direction='desc')`; an exception
there yields the empty list (lines 44–46). -/
def get_recent_items (parse : String → Option Int) (cutoff : Int)
    (fetched : Except String (List Item)) : List Item :=
  match fetched with
  | .error _ => []
  | .ok items => (scanItems parse cutoff items []).items

/-! ## `get_item_attachments` (lines 77–99) -/

/-- Filter of line 91–95: keep children whose `itemType` is `attachment` and
whose `linkMode` is `imported_file` or `imported_url`. -/
def isFileAttachment (att : Item) : Bool :=
  att.data.itemType == some "attachment" &&
    (att.data.linkMode == some "imported_file" ||
      att.data.linkMode == some "imported_url")

/-- `get_item_attachments` (lines 77–99): `children` is the outcome of
`self.zot.children(item_key)`; an exception yields the empty list. -/
def get_item_attachments (children : Except String (List Item)) : List Item :=
  match children with
  | .error _ => []
  | .ok atts => atts.filter isFileAttachment

/-! ## `sanitize_filename` (lines 101–133), on `List Char` -/

/-- Character class of the regex `[<>:"|?*\\/]` (line 115). -/
def isInvalidChar (c : Char) : Bool :=
  c = '<' || c = '>' || c = ':' || c = '"' || c = '|' ||
    c = '?' || c = '*' || c = '\\' || c = '/'

/-- Character class of the regex `[_\s]` (line 119); `\s` is modelled by the
ASCII whitespace characters. -/
def isSpaceUnd (c : Char) : Bool :=
  c = '_' || c = ' ' || c = '\t' || c = '\n' || c = '\r' ||
    c = '\x0b' || c = '\x0c'

/-- `re.sub(r'[<>:"|?*\\/]', '_', filename)` (line 116). -/
def replaceInvalid (l : List Char) : List Char :=
  l.map fun c => if isInvalidChar c then '_' else c

/-- `re.sub(r'[_\s]+', '_', filename)` (line 119): each maximal run of
characters in `[_\s]` becomes a single underscore. -/
def collapseRuns : List Char → List Char
  | [] => []
  | [c] => if isSpaceUnd c then ['_'] else [c]
  | c :: d :: rest =>
    if isSpaceUnd c then
      if isSpaceUnd d then collapseRuns (d :: rest)
      else '_' :: collapseRuns (d :: rest)
    else c :: collapseRuns (d :: rest)

/-- Character class of `filename.strip(' .')` (line 122). -/
def isStripChar (c : Char) : Bool :=
  c = ' ' || c = '.'

/-- `filename.strip(' .')` (line 122). -/
def stripSpaceDot (l : List Char) : List Char :=
  ((l.dropWhile isStripChar).reverse.dropWhile isStripChar).reverse

/-- Lines 125–127: `if len(filename) > max_length: filename = filename[:200]`. -/
def truncate200 (l : List Char) : List Char :=
  if l.length > 200 then l.take 200 else l

/-- `sanitize_filename` (lines 101–133). -/
def sanitize_filename (s : String) : String :=
  let l := truncate200 (stripSpaceDot (collapseRuns (replaceInvalid s.toList)))
  if l = [] then "untitled" else l.asString

/-! ## `get_file_extension` (lines 135–153) -/

/-- Python's substring test `needle in hay` on lists of characters. -/
def subOf (needle : List Char) : List Char → Bool
  | [] => needle.isEmpty
  | c :: rest => needle.isPrefixOf (c :: rest) || subOf needle rest

/-- Python's substring test `needle in hay` on strings. -/
def strContains (hay needle : String) : Bool :=
  subOf needle.toList hay.toList

/-- `get_file_extension` (lines 135–153).  `attachment['data'].get('contentType')`
is `None` when the key is absent, and `"pdf" in None` raises `TypeError`;
the raise is embedded as `none`. -/
def get_file_extension (att : Item) : Option String :=
  match att.data.contentType with
  | none => none
  | some ct => some (if strContains ct "pdf" then ".pdf" else ".html")

/-! ## `generate_unique_filename` (lines 155–180)

The directory is its current list of filenames; `os.path.exists` is list
membership.  The `while True` loop carries `dir.length + 1` fuel, enough to
reach a free counter (proved below from injectivity of decimal rendering). -/

/-- The candidate `f"{base}_{counter}{extension}"` of line 176. -/
def counterName (base ext : String) (counter : Nat) : String :=
  base ++ "_" ++ Nat.repr counter ++ ext

/-- The `while True` loop of lines 175–180, fuelled. -/
def uniqueLoop (base ext : String) (dir : List String) : Nat → Nat → String
  | 0, counter => counterName base ext counter
  | fuel + 1, counter =>
    let filename := counterName base ext counter
    if filename ∈ dir then uniqueLoop base ext dir fuel (counter + 1)
    else filename

/-- `generate_unique_filename` (lines 155–180). -/
def generate_unique_filename (base ext : String) (dir : List String) : String :=
  let filename := base ++ ext
  if filename ∈ dir then uniqueLoop base ext dir (dir.length + 1) 1
  else filename

/-! ## `download_attachment` (lines 182–227)

The fallible external steps are the content fetch `self.zot.file` (line 215,
`fetch`, `none` = exception) and the disk write of lines 219–220 (`write`,
`false` = exception).  Any exception inside the `try` block yields `False`
(lines 225–227); in particular a `None` `contentType` makes
`get_file_extension` raise before anything is written.  The result is the
success flag together with the directory contents after the call. -/

def download_attachment (fetch : String → Option (List UInt8))
    (write : String → Bool) (att parent : Item) (dir : List String) :
    Bool × List String :=
  let parentTitle := parent.data.title.getD "Untitled"
  let baseFilename := sanitize_filename parentTitle
  match get_file_extension att with
  | none => (false, dir)
  | some ext =>
    let finalFilename := generate_unique_filename baseFilename ext dir
    match fetch att.key with
    | none => (false, dir)
    | some _ =>
      if write finalFilename then (true, finalFilename :: dir)
      else (false, dir)

/-! ## `download_recent_documents` (lines 229–273) -/

/-- The final `=== Download Summary ===` block (lines 269–273). -/
structure DownloadSummary where
  totalDownloads : Nat
  successfulDownloads : Nat
  failedDownloads : Nat
deriving DecidableEq

/-- One step of the inner `for attachment in attachments` loop
(lines 264–267): bump `total_downloads`, attempt the download, bump
`successful_downloads` on `True`. -/
def attachmentStep (fetch : String → Option (List UInt8))
    (write : String → Bool) (item : Item)
    (st : Nat × Nat × List String) (att : Item) : Nat × Nat × List String :=
  let r := download_attachment fetch write att item st.2.2
  (st.1 + 1, (if r.1 then st.2.1 + 1 else st.2.1), r.2)

/-- The `for item in recent_items` loop body (lines 249–267). -/
def itemStep (fetch : String → Option (List UInt8)) (write : String → Bool)
    (children : String → Except String (List Item))
    (st : Nat × Nat × List String) (item : Item) : Nat × Nat × List String :=
  (get_item_attachments (children item.key)).foldl
    (attachmentStep fetch write item) st

/-- `download_recent_documents` (lines 229–273): select the recent items, walk
their attachments, and report the printed summary (with
`failedDownloads = total_downloads - successful_downloads` as printed at
line 272) together with the final directory contents. -/
def download_recent_documents (parse : String → Option Int) (cutoff : Int)
    (fetched : Except String (List Item))
    (children : String → Except String (List Item))
    (fetch : String → Option (List UInt8)) (write : String → Bool)
    (dir : List String) : DownloadSummary × List String :=
  let recentItems := get_recent_items parse cutoff fetched
  let st := recentItems.foldl (itemStep fetch write children) (0, 0, dir)
  (⟨st.1, st.2.1, st.1 - st.2.1⟩, st.2.2)

/-! ## Reference definitions

These do not embed repository code.  `sanitize_title_spec` follows the
wording of the specification's five-step transform (its step 2 tracks
whether a run is open with a flag, and its steps 4–5 are an unconditional
truncation and an emptiness check); claim C2 compares it with
`sanitize_filename` above.  `decDigits` is a reference decimal digit list
used to prove `Nat.repr` injective. -/

/-- Step 2 of the spec's transform: walking left to right, emit one
underscore at the start of each run of underscore/whitespace characters and
drop the rest of the run. -/
def collapseFlag : Bool → List Char → List Char
  | _, [] => []
  | inRun, c :: rest =>
    if isSpaceUnd c then
      if inRun then collapseFlag true rest
      else '_' :: collapseFlag true rest
    else c :: collapseFlag false rest

/-- The five-step transform as the specification words it: replace reserved
characters, collapse runs, strip leading/trailing spaces and dots, truncate
to 200 characters, fall back to "untitled" when empty. -/
def sanitize_title_spec (s : String) : String :=
  let step1 := s.toList.map fun c => if isInvalidChar c then '_' else c
  let step2 := collapseFlag false step1
  let step3 := ((step2.dropWhile isStripChar).reverse.dropWhile isStripChar).reverse
  let step4 := step3.take 200
  if step4 = [] then "untitled" else step4.asString

/-- Decimal digits of `n`, most significant first. -/
def decDigits (n : Nat) : List Char :=
  if n < 10 then [Nat.digitChar n]
  else decDigits (n / 10) ++ [Nat.digitChar (n % 10)]
decreasing_by exact Nat.div_lt_self (by omega) (by omega)

/-! ## Lemmas: decimal rendering

`counterName` injectivity (needed to show the probing loop always meets a
free name) reduces to injectivity of `Nat.repr`, proved here through the
reference digit list. -/

lemma decDigits_lt {n : Nat} (h : n < 10) :
    decDigits n = [Nat.digitChar n] := by
  rw [decDigits, if_pos h]

lemma decDigits_ge {n : Nat} (h : ¬ n < 10) :
    decDigits n = decDigits (n / 10) ++ [Nat.digitChar (n % 10)] := by
  rw [decDigits]
  rw [if_neg h]

lemma decDigits_ne_nil (n : Nat) : decDigits n ≠ [] := by
  rw [decDigits]
  split <;> simp

lemma digitChar_inj : ∀ a < 10, ∀ b < 10,
    Nat.digitChar a = Nat.digitChar b → a = b := by decide

lemma decDigits_inj (a : Nat) : ∀ b, decDigits a = decDigits b → a = b := by
  induction a using Nat.strong_induction_on with
  | _ a ih =>
    intro b h
    by_cases ha : a < 10 <;> by_cases hb : b < 10
    · rw [decDigits_lt ha, decDigits_lt hb] at h
      exact digitChar_inj a ha b hb (List.head_eq_of_cons_eq h)
    · rw [decDigits_lt ha, decDigits_ge hb] at h
      have hlen := congrArg List.length h
      simp only [List.length_singleton, List.length_append, List.length_cons,
        List.length_nil] at hlen
      have hnil : decDigits (b / 10) = [] := List.length_eq_zero.mp (by omega)
      exact absurd hnil (decDigits_ne_nil (b / 10))
    · rw [decDigits_ge ha, decDigits_lt hb] at h
      have hlen := congrArg List.length h
      simp only [List.length_singleton, List.length_append, List.length_cons,
        List.length_nil] at hlen
      have hnil : decDigits (a / 10) = [] := List.length_eq_zero.mp (by omega)
      exact absurd hnil (decDigits_ne_nil (a / 10))
    · rw [decDigits_ge ha, decDigits_ge hb] at h
      obtain ⟨h1, h2⟩ := List.append_inj' h rfl
      have hdiv : a / 10 = b / 10 :=
        ih (a / 10) (Nat.div_lt_self (by omega) (by omega)) (b / 10) h1
      have hmod : a % 10 = b % 10 :=
        digitChar_inj (a % 10) (Nat.mod_lt a (by omega)) (b % 10)
          (Nat.mod_lt b (by omega)) (List.head_eq_of_cons_eq h2)
      omega

lemma toDigitsCore_eq_decDigits :
    ∀ fuel n ds, n < fuel →
      Nat.toDigitsCore 10 fuel n ds = decDigits n ++ ds := by
  intro fuel
  induction fuel with
  | zero => omega
  | succ fuel ih =>
    intro n ds h
    rw [Nat.toDigitsCore]
    by_cases h10 : n / 10 = 0
    · have hn : n < 10 := by omega
      rw [if_pos h10, decDigits_lt hn, Nat.mod_eq_of_lt hn,
        List.singleton_append]
    · have hn : ¬ n < 10 := by omega
      rw [if_neg h10, ih (n / 10) _ (by omega), decDigits_ge hn,
        List.append_assoc, List.singleton_append]

lemma repr_eq_decDigits (n : Nat) : Nat.repr n = (decDigits n).asString := by
  rw [Nat.repr, Nat.toDigits, toDigitsCore_eq_decDigits (n + 1) n [] (by omega),
    List.append_nil]

lemma nat_repr_injective : Function.Injective Nat.repr := by
  intro a b h
  rw [repr_eq_decDigits, repr_eq_decDigits] at h
  exact decDigits_inj a b (congrArg String.data h)

lemma counterName_inj (base ext : String) :
    Function.Injective (counterName base ext) := by
  intro j k h
  apply nat_repr_injective
  have hd := congrArg String.data h
  simp only [counterName, String.data_append] at hd
  have h1 := List.append_cancel_right hd
  have h2 := List.append_cancel_left h1
  exact String.ext h2

/-- Pigeonhole: among the first `dir.length + 1` counters there is one whose
candidate name is not in the directory. -/
lemma exists_free_counter (base ext : String) (dir : List String) :
    ∃ j, 1 ≤ j ∧ j ≤ dir.length + 1 ∧ counterName base ext j ∉ dir := by
  by_contra hc
  push_neg at hc
  have hinj : Function.Injective fun k => counterName base ext (k + 1) := by
    intro j k h
    have := counterName_inj base ext h
    omega
  have hsub : (Finset.range (dir.length + 1)).image
      (fun k => counterName base ext (k + 1)) ⊆ dir.toFinset := by
    intro x hx
    simp only [Finset.mem_image, Finset.mem_range] at hx
    obtain ⟨k, hk, rfl⟩ := hx
    exact List.mem_toFinset.mpr (hc (k + 1) (by omega) (by omega))
  have hcard := Finset.card_le_card hsub
  rw [Finset.card_image_of_injective _ hinj, Finset.card_range] at hcard
  have := dir.toFinset_card_le
  omega

/-- The fuelled loop returns the candidate of the least free counter,
provided some counter in its fuel window is free. -/
lemma uniqueLoop_spec (base ext : String) (dir : List String) :
    ∀ fuel counter,
      (∃ j, counter ≤ j ∧ j < counter + fuel ∧ counterName base ext j ∉ dir) →
      ∃ k, counter ≤ k ∧
        uniqueLoop base ext dir fuel counter = counterName base ext k ∧
        counterName base ext k ∉ dir ∧
        ∀ j, counter ≤ j → j < k → counterName base ext j ∈ dir := by
  intro fuel
  induction fuel with
  | zero =>
    intro counter h
    obtain ⟨j, h1, h2, _⟩ := h
    omega
  | succ fuel ih =>
    intro counter h
    obtain ⟨j, hj1, hj2, hj3⟩ := h
    rw [uniqueLoop]
    by_cases hmem : counterName base ext counter ∈ dir
    · simp only [hmem, if_true]
      have hwit : ∃ j2, counter + 1 ≤ j2 ∧ j2 < counter + 1 + fuel ∧
          counterName base ext j2 ∉ dir := by
        refine ⟨j, ?_, by omega, hj3⟩
        rcases Nat.eq_or_lt_of_le hj1 with rfl | hlt
        · exact absurd hmem hj3
        · omega
      obtain ⟨k, hk1, hk2, hk3, hk4⟩ := ih (counter + 1) hwit
      refine ⟨k, by omega, hk2, hk3, fun j2 hc hjk => ?_⟩
      rcases Nat.eq_or_lt_of_le hc with rfl | hlt
      · exact hmem
      · exact hk4 j2 (by omega) hjk
    · simp only [hmem, if_false]
      exact ⟨counter, Nat.le_refl _, rfl, hmem,
        fun j2 h1 h2 => absurd h1 (by omega)⟩

/-- Behaviour of `generate_unique_filename` on any finite directory: the
plain name when free, otherwise the least-counter candidate; the result is
never an existing file. -/
lemma generate_unique_filename_spec (base ext : String) (dir : List String) :
    (base ++ ext ∉ dir → generate_unique_filename base ext dir = base ++ ext) ∧
    (base ++ ext ∈ dir →
      ∃ k, 1 ≤ k ∧
        generate_unique_filename base ext dir = counterName base ext k ∧
        counterName base ext k ∉ dir ∧
        ∀ j, 1 ≤ j → j < k → counterName base ext j ∈ dir) ∧
    generate_unique_filename base ext dir ∉ dir := by
  by_cases hmem : base ++ ext ∈ dir
  · have hwin : ∃ j, 1 ≤ j ∧ j < 1 + (dir.length + 1) ∧
        counterName base ext j ∉ dir := by
      obtain ⟨j, h1, h2, h3⟩ := exists_free_counter base ext dir
      exact ⟨j, h1, by omega, h3⟩
    obtain ⟨k, hk1, hk2, hk3, hk4⟩ :=
      uniqueLoop_spec base ext dir (dir.length + 1) 1 hwin
    have hval : generate_unique_filename base ext dir = counterName base ext k := by
      rw [generate_unique_filename]
      simp only [hmem, if_true]
      exact hk2
    refine ⟨fun h => absurd hmem h, fun _ => ⟨k, hk1, hval, hk3, hk4⟩, ?_⟩
    rw [hval]; exact hk3
  · have hval : generate_unique_filename base ext dir = base ++ ext := by
      rw [generate_unique_filename]
      simp only [hmem, if_false]
    exact ⟨fun _ => hval, fun h => absurd h hmem, hval ▸ hmem⟩

/-! ## Lemmas: `sanitize_filename` -/

lemma collapseRuns_cons_not {d : Char} (r : List Char)
    (hd : isSpaceUnd d = false) : collapseRuns (d :: r) = d :: collapseRuns r := by
  cases r with
  | nil => simp [collapseRuns, hd]
  | cons e r2 => simp [collapseRuns, hd]

lemma collapseRuns_eq_flag (l : List Char) :
    collapseRuns l = collapseFlag false l ∧
      ∀ c, isSpaceUnd c = true →
        collapseRuns (c :: l) = '_' :: collapseFlag true l := by
  induction l with
  | nil =>
    refine ⟨rfl, fun c hc => ?_⟩
    simp [collapseRuns, collapseFlag, hc]
  | cons d r ih =>
    constructor
    · cases hd : isSpaceUnd d
      · rw [collapseRuns_cons_not r hd, ih.1]
        simp [collapseFlag, hd]
      · rw [ih.2 d hd]
        simp [collapseFlag, hd]
    · intro c hc
      cases hd : isSpaceUnd d
      · have : collapseRuns (c :: d :: r) = '_' :: collapseRuns (d :: r) := by
          simp [collapseRuns, hc, hd]
        rw [this, collapseRuns_cons_not r hd, ih.1]
        simp [collapseFlag, hd]
      · have : collapseRuns (c :: d :: r) = collapseRuns (d :: r) := by
          simp [collapseRuns, hc, hd]
        rw [this, ih.2 d hd]
        simp [collapseFlag, hd]

lemma mem_collapseRuns : ∀ l : List Char, ∀ c ∈ collapseRuns l,
    c = '_' ∨ c ∈ l := by
  intro l
  induction l with
  | nil => simp [collapseRuns]
  | cons d r ih =>
    intro c hc
    cases r with
    | nil =>
      cases hd : isSpaceUnd d <;> simp [collapseRuns, hd] at hc <;> simp [hc]
    | cons e r2 =>
      cases hd : isSpaceUnd d
      · rw [collapseRuns_cons_not (e :: r2) hd] at hc
        rcases List.mem_cons.mp hc with rfl | hc2
        · simp
        · rcases ih c hc2 with h | h
          · exact Or.inl h
          · exact Or.inr (List.mem_cons_of_mem d h)
      · cases he : isSpaceUnd e <;> simp only [collapseRuns, hd, he] at hc
        · simp only [if_true, Bool.false_eq_true, if_false] at hc
          rcases List.mem_cons.mp hc with rfl | hc2
          · exact Or.inl rfl
          · rcases ih c hc2 with h | h
            · exact Or.inl h
            · exact Or.inr (List.mem_cons_of_mem d h)
        · simp only [if_true] at hc
          rcases ih c hc with h | h
          · exact Or.inl h
          · exact Or.inr (List.mem_cons_of_mem d h)

lemma mem_dropWhile {p : Char → Bool} : ∀ l : List Char, ∀ c ∈ l.dropWhile p,
    c ∈ l := by
  intro l
  induction l with
  | nil => simp
  | cons d r ih =>
    intro c hc
    rw [List.dropWhile_cons] at hc
    by_cases hd : p d = true
    · simp only [hd, if_true] at hc
      exact List.mem_cons_of_mem d (ih c hc)
    · simp only [hd, if_false] at hc
      exact hc

lemma mem_stripSpaceDot (l : List Char) : ∀ c ∈ stripSpaceDot l, c ∈ l := by
  intro c hc
  simp only [stripSpaceDot, List.mem_reverse] at hc
  have h1 := mem_dropWhile _ c hc
  rw [List.mem_reverse] at h1
  exact mem_dropWhile _ c h1

lemma mem_truncate200 (l : List Char) : ∀ c ∈ truncate200 l, c ∈ l := by
  intro c hc
  rw [truncate200] at hc
  split at hc
  · exact List.take_subset 200 l hc
  · exact hc

lemma truncate200_length (l : List Char) : (truncate200 l).length ≤ 200 := by
  rw [truncate200]
  split
  · simp [List.length_take]
  · omega

lemma sanitize_chars_valid (s : String) :
    ∀ c ∈ truncate200 (stripSpaceDot (collapseRuns (replaceInvalid s.toList))),
      isInvalidChar c = false := by
  intro c hc
  have h1 := mem_stripSpaceDot _ c (mem_truncate200 _ c hc)
  rcases mem_collapseRuns _ c h1 with rfl | h2
  · decide
  · simp only [replaceInvalid, List.mem_map] at h2
    obtain ⟨a, _, rfl⟩ := h2
    by_cases ha : isInvalidChar a = true
    · simp [ha]
      decide
    · simp only [Bool.not_eq_true] at ha
      simp [ha]

lemma sanitize_filename_eq_spec (s : String) :
    sanitize_filename s = sanitize_title_spec s := by
  have key : truncate200 (stripSpaceDot (collapseRuns (replaceInvalid s.toList))) =
      ((((collapseFlag false (s.toList.map fun c =>
        if isInvalidChar c then '_' else c)).dropWhile
        isStripChar).reverse.dropWhile isStripChar).reverse).take 200 := by
    simp only [replaceInvalid]
    rw [(collapseRuns_eq_flag _).1, stripSpaceDot, truncate200]
    split
    · rfl
    · rw [List.take_of_length_le (by omega)]
  rw [sanitize_filename, sanitize_title_spec, key]

/-! ## Lemmas: the recency scan -/

lemma scanItems_wf (parse : String → Option Int) (cutoff : Int) :
    ∀ items seen,
      (∀ it ∈ (scanItems parse cutoff items seen).items,
        it.data.parentItem = none) ∧
      ((scanItems parse cutoff items seen).items.map Item.key).Nodup ∧
      (∀ it ∈ (scanItems parse cutoff items seen).items, it.key ∉ seen) ∧
      (scanItems parse cutoff items seen).items.Sublist items := by
  intro items
  induction items with
  | nil =>
    intro seen
    simp [scanItems]
  | cons item rest ih =>
    intro seen
    rw [scanItems]
    by_cases hs : item.data.dateAdded.getD "" = ""
    · simp only [if_pos hs]
      obtain ⟨w1, w2, w3, w4⟩ := ih seen
      exact ⟨w1, w2, w3, w4.cons item⟩
    · simp only [if_neg hs]
      cases hp : parse (item.data.dateAdded.getD "") with
      | none =>
        obtain ⟨w1, w2, w3, w4⟩ := ih seen
        exact ⟨w1, w2, w3, w4.cons item⟩
      | some d =>
        by_cases hcut : cutoff ≤ d
        · simp only [if_pos hcut]
          by_cases hpar : item.data.parentItem = none
          · simp only [if_pos hpar]
            by_cases hseen : item.key ∈ seen
            · simp only [if_pos hseen]
              obtain ⟨w1, w2, w3, w4⟩ := ih seen
              exact ⟨w1, w2, w3, w4.cons item⟩
            · simp only [if_neg hseen]
              obtain ⟨w1, w2, w3, w4⟩ := ih (item.key :: seen)
              refine ⟨?_, ?_, ?_, w4.cons₂ item⟩
              · intro it hit
                rcases List.mem_cons.mp hit with rfl | h2
                · exact hpar
                · exact w1 it h2
              · rw [List.map_cons, List.nodup_cons]
                refine ⟨?_, w2⟩
                intro hmem
                rw [List.mem_map] at hmem
                obtain ⟨it, hit, hk⟩ := hmem
                exact w3 it hit (hk ▸ List.mem_cons_self _ _)
              · intro it hit
                rcases List.mem_cons.mp hit with rfl | h2
                · exact hseen
                · intro hins
                  exact w3 it h2 (List.mem_cons_of_mem _ hins)
          · simp only [if_neg hpar]
            obtain ⟨w1, w2, w3, w4⟩ := ih seen
            exact ⟨w1, w2, w3, w4.cons item⟩
        · simp only [if_neg hcut]
          simp

/-! ## Lemmas: download counting -/

lemma attachFold_counts (fetch : String → Option (List UInt8))
    (write : String → Bool) (item : Item) :
    ∀ (atts : List Item) (st : Nat × Nat × List String),
      (atts.foldl (attachmentStep fetch write item) st).1 = st.1 + atts.length ∧
      (st.2.1 ≤ st.1 →
        (atts.foldl (attachmentStep fetch write item) st).2.1 ≤
          (atts.foldl (attachmentStep fetch write item) st).1) := by
  intro atts
  induction atts with
  | nil =>
    intro st
    exact ⟨rfl, fun h => h⟩
  | cons att rest ih =>
    intro st
    rw [List.foldl_cons]
    obtain ⟨w1, w2⟩ := ih (attachmentStep fetch write item st att)
    constructor
    · rw [w1]
      simp only [attachmentStep, List.length_cons]
      omega
    · intro h
      apply w2
      simp only [attachmentStep]
      split <;> omega

lemma itemFold_counts (fetch : String → Option (List UInt8))
    (write : String → Bool) (children : String → Except String (List Item)) :
    ∀ (items : List Item) (st : Nat × Nat × List String),
      (items.foldl (itemStep fetch write children) st).1 =
        st.1 + (items.map fun it =>
          (get_item_attachments (children it.key)).length).sum ∧
      (st.2.1 ≤ st.1 →
        (items.foldl (itemStep fetch write children) st).2.1 ≤
          (items.foldl (itemStep fetch write children) st).1) := by
  intro items
  induction items with
  | nil =>
    intro st
    simp
  | cons item rest ih =>
    intro st
    rw [List.foldl_cons]
    obtain ⟨w1, w2⟩ := ih (itemStep fetch write children st item)
    obtain ⟨a1, a2⟩ := attachFold_counts fetch write item
      (get_item_attachments (children item.key)) st
    constructor
    · rw [w1]
      simp only [itemStep, List.map_cons, List.sum_cons]
      rw [a1]
      omega
    · intro h
      apply w2
      exact a2 h

/-! ## Claim theorems -/

/-- C2: `sanitize_filename` coincides with the specification's five-step
reference transform on every input; its output never contains a reserved
character and is at most 200 characters long; the empty title and `"...."`
both yield `"untitled"`. -/
theorem sanitize_filename_correct :
    (∀ s, sanitize_filename s = sanitize_title_spec s) ∧
    (∀ s, ((sanitize_filename s).toList.all fun c => !(isInvalidChar c)) = true) ∧
    (∀ s, (sanitize_filename s).length ≤ 200) ∧
    sanitize_filename "" = "untitled" ∧
    sanitize_filename "...." = "untitled" := by
  refine ⟨sanitize_filename_eq_spec, ?_, ?_, by decide, by decide⟩
  · intro s
    rw [List.all_eq_true]
    intro c hc
    rw [sanitize_filename] at hc
    split at hc
    · have hall : ∀ c ∈ "untitled".toList, (!(isInvalidChar c)) = true := by decide
      exact hall c hc
    · have hc2 : c ∈ truncate200 (stripSpaceDot (collapseRuns
        (replaceInvalid s.toList))) := hc
      simp [sanitize_chars_valid s c hc2]
  · intro s
    rw [sanitize_filename]
    split
    · decide
    · exact truncate200_length _

/-- C2 witness: the general theorem evaluated at a title with a reserved
character. -/
theorem sanitize_filename_correct_witness :
    sanitize_filename "a: b" = sanitize_title_spec "a: b" ∧
    sanitize_filename "" = "untitled" :=
  ⟨sanitize_filename_correct.1 "a: b", sanitize_filename_correct.2.2.2.1⟩

/-- C4 counterexample: the claim promises `.pdf` for every content kind
containing "pdf" in any case, but on contentType "PDF" the code returns
`.html` (the Python substring test is case-sensitive). -/
theorem get_file_extension_uppercase_counterexample :
    get_file_extension ⟨"attX", ⟨none, none, none, some "attachment",
      some "imported_file", some "PDF", none⟩⟩ = some ".html" ∧
    some ".html" ≠ some (".pdf" : String) := by
  constructor
  · rfl
  · decide

/-- C4 amended: for an attachment whose declared content kind is the string
`ct`, the extension is `.pdf` exactly when `ct` contains the lowercase
substring "pdf" (the test is case-sensitive), `.html` otherwise, and no
other extension is produced. -/
theorem get_file_extension_case_sensitive (att : Item) (ct : String)
    (h : att.data.contentType = some ct) :
    (strContains ct "pdf" = true → get_file_extension att = some ".pdf") ∧
    (strContains ct "pdf" = false → get_file_extension att = some ".html") ∧
    (get_file_extension att = some ".pdf" ∨
      get_file_extension att = some ".html") := by
  have hg : get_file_extension att =
      some (if strContains ct "pdf" then ".pdf" else ".html") := by
    rw [get_file_extension, h]
  refine ⟨fun hc => ?_, fun hc => ?_, ?_⟩
  · rw [hg, if_pos hc]
  · rw [hg, if_neg (by simp [hc])]
  · rw [hg]
    cases hc : strContains ct "pdf"
    · right
      simp
    · left
      simp

/-- C4 witness: the amended theorem evaluated on contentType
"application/pdf" and on "text/html". -/
theorem get_file_extension_case_sensitive_witness :
    get_file_extension ⟨"a1", ⟨none, none, none, some "attachment",
      some "imported_file", some "application/pdf", none⟩⟩ = some ".pdf" ∧
    get_file_extension ⟨"a2", ⟨none, none, none, some "attachment",
      some "imported_file", some "text/html", none⟩⟩ = some ".html" :=
  ⟨(get_file_extension_case_sensitive _ "application/pdf" rfl).1 (by decide),
    (get_file_extension_case_sensitive _ "text/html" rfl).2.1 (by decide)⟩

/-- C6: on any fetched feed the selector returns only entries with no
parent-item reference, with pairwise distinct keys, in feed order (a
sublist of the feed). -/
theorem get_recent_items_toplevel_nodup (parse : String → Option Int)
    (cutoff : Int) (items : List Item) :
    ((get_recent_items parse cutoff (Except.ok items)).all
      fun it => it.data.parentItem == none) = true ∧
    ((get_recent_items parse cutoff (Except.ok items)).map Item.key).Nodup ∧
    (get_recent_items parse cutoff (Except.ok items)).Sublist items := by
  obtain ⟨w1, w2, _, w4⟩ := scanItems_wf parse cutoff items []
  refine ⟨?_, w2, w4⟩
  rw [List.all_eq_true]
  intro it hit
  rw [w1 it hit]
  rfl

/-- C6 witness: a feed containing a child entry and a duplicated key, with
all timestamps in the window. -/
theorem get_recent_items_toplevel_nodup_witness :
    ((get_recent_items (fun _ => some 7) 0 (Except.ok
      [⟨"k1", ⟨none, some "a", none, none, none, none, none⟩⟩,
       ⟨"kc", ⟨none, some "a", some "k1", none, none, none, none⟩⟩,
       ⟨"k1", ⟨none, some "a", none, none, none, none, none⟩⟩])).all
      fun it => it.data.parentItem == none) = true ∧
    ((get_recent_items (fun _ => some 7) 0 (Except.ok
      [⟨"k1", ⟨none, some "a", none, none, none, none, none⟩⟩,
       ⟨"kc", ⟨none, some "a", some "k1", none, none, none, none⟩⟩,
       ⟨"k1", ⟨none, some "a", none, none, none, none, none⟩⟩])).map
      Item.key).Nodup ∧
    (get_recent_items (fun _ => some 7) 0 (Except.ok
      [⟨"k1", ⟨none, some "a", none, none, none, none, none⟩⟩,
       ⟨"kc", ⟨none, some "a", some "k1", none, none, none, none⟩⟩,
       ⟨"k1", ⟨none, some "a", none, none, none, none, none⟩⟩])).Sublist
      [⟨"k1", ⟨none, some "a", none, none, none, none, none⟩⟩,
       ⟨"kc", ⟨none, some "a", some "k1", none, none, none, none⟩⟩,
       ⟨"k1", ⟨none, some "a", none, none, none, none, none⟩⟩] :=
  get_recent_items_toplevel_nodup (fun _ => some 7) 0
    [⟨"k1", ⟨none, some "a", none, none, none, none, none⟩⟩,
     ⟨"kc", ⟨none, some "a", some "k1", none, none, none, none⟩⟩,
     ⟨"k1", ⟨none, some "a", none, none, none, none, none⟩⟩]

/-- C7: a failing items fetch makes `get_recent_items` return the empty
list (no exception escapes), observationally identical to an empty feed. -/
theorem get_recent_items_fetch_error (parse : String → Option Int)
    (cutoff : Int) (msg : String) :
    get_recent_items parse cutoff (Except.error msg) = [] ∧
    get_recent_items parse cutoff (Except.ok []) = [] :=
  ⟨rfl, rfl⟩

/-- C7 witness: a concrete failing fetch. -/
theorem get_recent_items_fetch_error_witness :
    get_recent_items (fun _ => some 1) 0 (Except.error "connection error") = [] :=
  (get_recent_items_fetch_error (fun _ => some 1) 0 "connection error").1

/-- C10: an attachment with no contentType makes `get_file_extension` raise
(Python `"pdf" in None` is a TypeError), so `download_attachment` returns
False and the directory is unchanged — no file is written. -/
theorem download_attachment_no_contentType
    (fetch : String → Option (List UInt8)) (write : String → Bool)
    (att parent : Item) (dir : List String)
    (h : att.data.contentType = none) :
    get_file_extension att = none ∧
    download_attachment fetch write att parent dir = (false, dir) := by
  constructor
  · rw [get_file_extension, h]
  · rw [download_attachment, get_file_extension, h]

/-- C10 witness: a concrete attachment with contentType absent. -/
theorem download_attachment_no_contentType_witness :
    get_file_extension ⟨"a1", ⟨none, none, none, some "attachment",
      some "imported_file", none, some "f.bin"⟩⟩ = none ∧
    download_attachment (fun _ => some []) (fun _ => true)
      ⟨"a1", ⟨none, none, none, some "attachment", some "imported_file",
        none, some "f.bin"⟩⟩
      ⟨"p1", ⟨some "T", none, none, none, none, none, none⟩⟩ [] =
      (false, []) :=
  download_attachment_no_contentType (fun _ => some []) (fun _ => true)
    ⟨"a1", ⟨none, none, none, some "attachment", some "imported_file",
      none, some "f.bin"⟩⟩
    ⟨"p1", ⟨some "T", none, none, none, none, none, none⟩⟩ [] rfl

/-- C1: on a feed ordered T0 > T1 with the cutoff strictly between T1 and
T2, the scan returns exactly the entries at T0 and T1 in that order,
stopping at the first entry whose parsed timestamp drops below the cutoff:
the third entry matters only through that below-cutoff timestamp, and the
fourth entry is universally quantified — it is never inspected. -/
theorem get_recent_items_early_exit (parse : String → Option Int)
    (cutoff t0 t1 t2 : Int) (e0 e1 e2 e3 : Item) (s0 s1 s2 : String)
    (h0s : e0.data.dateAdded = some s0) (h0ne : s0 ≠ "")
    (h0p : parse s0 = some t0)
    (h1s : e1.data.dateAdded = some s1) (h1ne : s1 ≠ "")
    (h1p : parse s1 = some t1)
    (h2s : e2.data.dateAdded = some s2) (h2ne : s2 ≠ "")
    (h2p : parse s2 = some t2)
    (h0par : e0.data.parentItem = none) (h1par : e1.data.parentItem = none)
    (hkey : e0.key ≠ e1.key)
    (horder : t1 < t0) (hcut_hi : cutoff < t1) (hcut_lo : t2 < cutoff) :
    get_recent_items parse cutoff (Except.ok [e0, e1, e2, e3]) = [e0, e1] := by
  have hc0 : cutoff ≤ t0 := by omega
  have hc1 : cutoff ≤ t1 := by omega
  have hc2 : ¬ cutoff ≤ t2 := by omega
  simp [get_recent_items, scanItems, h0s, h1s, h2s, h0ne, h1ne, h2ne,
    h0p, h1p, h2p, hc0, hc1, hc2, h0par, h1par, Ne.symm hkey]

/-- C1 witness: a concrete four-entry feed with timestamps 10 > 8 > 2 > 1
and cutoff 5. -/
theorem get_recent_items_early_exit_witness :
    get_recent_items
      (fun s => if s = "a" then some 10 else if s = "b" then some 8 else
        if s = "c" then some 2 else some 1) 5
      (Except.ok
        [⟨"k0", ⟨none, some "a", none, none, none, none, none⟩⟩,
         ⟨"k1", ⟨none, some "b", none, none, none, none, none⟩⟩,
         ⟨"k2", ⟨none, some "c", none, none, none, none, none⟩⟩,
         ⟨"k3", ⟨none, some "d", none, none, none, none, none⟩⟩]) =
      [⟨"k0", ⟨none, some "a", none, none, none, none, none⟩⟩,
       ⟨"k1", ⟨none, some "b", none, none, none, none, none⟩⟩] :=
  get_recent_items_early_exit
    (fun s => if s = "a" then some 10 else if s = "b" then some 8 else
      if s = "c" then some 2 else some 1) 5 10 8 2
    ⟨"k0", ⟨none, some "a", none, none, none, none, none⟩⟩
    ⟨"k1", ⟨none, some "b", none, none, none, none, none⟩⟩
    ⟨"k2", ⟨none, some "c", none, none, none, none, none⟩⟩
    ⟨"k3", ⟨none, some "d", none, none, none, none, none⟩⟩
    "a" "b" "c" rfl (by decide) (by decide) rfl (by decide) (by decide)
    rfl (by decide) (by decide) rfl rfl (by decide) (by decide) (by decide)
    (by decide)

/-- C8: an entry whose non-empty timestamp string fails to parse is skipped
with a log line and the scan continues with the remaining entries; an entry
whose timestamp field is absent or empty is skipped silently (identical
result, including the log) and does not terminate the scan. -/
theorem scanItems_skip_bad_date (parse : String → Option Int) (cutoff : Int)
    (item : Item) (rest : List Item) (seen : List String) :
    (item.data.dateAdded.getD "" ≠ "" →
      parse (item.data.dateAdded.getD "") = none →
      scanItems parse cutoff (item :: rest) seen =
        ⟨(scanItems parse cutoff rest seen).items,
          couldNotParseMsg (item.data.dateAdded.getD "") ::
            (scanItems parse cutoff rest seen).log⟩) ∧
    (item.data.dateAdded.getD "" = "" →
      scanItems parse cutoff (item :: rest) seen =
        scanItems parse cutoff rest seen) := by
  constructor
  · intro h1 h2
    rw [scanItems, if_neg h1, h2]
  · intro h1
    rw [scanItems, if_pos h1]

/-- C8 witness: one entry with an unparseable date and one with no date. -/
theorem scanItems_skip_bad_date_witness :
    scanItems (fun _ => none) 0
      [⟨"kb", ⟨none, some "x", none, none, none, none, none⟩⟩] [] =
      ⟨(scanItems (fun _ => none) 0 [] []).items,
        couldNotParseMsg "x" :: (scanItems (fun _ => none) 0 [] []).log⟩ ∧
    scanItems (fun _ => none) 0
      [⟨"ke", ⟨none, none, none, none, none, none, none⟩⟩] [] =
      scanItems (fun _ => none) 0 [] [] :=
  ⟨(scanItems_skip_bad_date (fun _ => none) 0
      ⟨"kb", ⟨none, some "x", none, none, none, none, none⟩⟩ [] []).1
      (by decide) rfl,
    (scanItems_skip_bad_date (fun _ => none) 0
      ⟨"ke", ⟨none, none, none, none, none, none, none⟩⟩ [] []).2 rfl⟩

/-- C3: `generate_unique_filename` returns `base ++ ext` when that name is
free, otherwise the candidate with the smallest counter k ≥ 1 that is free;
the result never names an existing file, and calling again after creating
the returned file yields a different name. -/
theorem generate_unique_filename_correct (base ext : String)
    (dir : List String) :
    (base ++ ext ∉ dir → generate_unique_filename base ext dir = base ++ ext) ∧
    (base ++ ext ∈ dir →
      ∃ k, 1 ≤ k ∧
        generate_unique_filename base ext dir = counterName base ext k ∧
        counterName base ext k ∉ dir ∧
        ∀ j, 1 ≤ j → j < k → counterName base ext j ∈ dir) ∧
    generate_unique_filename base ext dir ∉ dir ∧
    generate_unique_filename base ext
        (generate_unique_filename base ext dir :: dir) ≠
      generate_unique_filename base ext dir := by
  obtain ⟨w1, w2, w3⟩ := generate_unique_filename_spec base ext dir
  refine ⟨w1, w2, w3, ?_⟩
  obtain ⟨_, _, w3s⟩ := generate_unique_filename_spec base ext
    (generate_unique_filename base ext dir :: dir)
  intro heq
  rw [heq] at w3s
  exact w3s (List.mem_cons_self _ _)

/-- C3 witness: the theorem at base "Draft", extension ".pdf", against a
directory already holding "Draft.pdf". -/
theorem generate_unique_filename_correct_witness :
    (∃ k, 1 ≤ k ∧
      generate_unique_filename "Draft" ".pdf" ["Draft.pdf"] =
        counterName "Draft" ".pdf" k ∧
      counterName "Draft" ".pdf" k ∉ ["Draft.pdf"] ∧
      ∀ j, 1 ≤ j → j < k → counterName "Draft" ".pdf" j ∈ ["Draft.pdf"]) ∧
    generate_unique_filename "Draft" ".pdf" ["Draft.pdf"] ∉ ["Draft.pdf"] ∧
    generate_unique_filename "Draft" ".pdf"
        (generate_unique_filename "Draft" ".pdf" ["Draft.pdf"] ::
          ["Draft.pdf"]) ≠
      generate_unique_filename "Draft" ".pdf" ["Draft.pdf"] :=
  ⟨(generate_unique_filename_correct "Draft" ".pdf" ["Draft.pdf"]).2.1
      (by decide),
    (generate_unique_filename_correct "Draft" ".pdf" ["Draft.pdf"]).2.2.1,
    (generate_unique_filename_correct "Draft" ".pdf" ["Draft.pdf"]).2.2.2⟩

/-- C5 counterexample: in the claimed scenario (entry titled
"My: Paper?.pdf", one PDF imported-file attachment, one link-only
attachment, all fetches and writes succeeding) exactly one file is written,
but its name is "My_Paper_.pdf.pdf", not the claimed "My__Paper_.pdf":
step 2 collapses the run "_ " to a single underscore, and the extension is
appended to the sanitized title, which already ends in ".pdf". -/
theorem download_scenario_counterexample :
    (download_recent_documents (fun _ => some 10) 0
      (Except.ok [⟨"item1", ⟨some "My: Paper?.pdf", some "d0", none, none,
        none, none, none⟩⟩])
      (fun k => if k = "item1" then Except.ok
        [⟨"att1", ⟨none, none, none, some "attachment", some "imported_file",
          some "application/pdf", some "paper.pdf"⟩⟩,
         ⟨"att2", ⟨none, none, none, some "attachment", some "linked_url",
          some "text/html", none⟩⟩]
        else Except.ok [])
      (fun _ => some []) (fun _ => true) []).2 = ["My_Paper_.pdf.pdf"] ∧
    ("My_Paper_.pdf.pdf" : String) ≠ "My__Paper_.pdf" := by
  constructor
  · decide
  · decide

/-- C5 amended: in that scenario exactly one file is written (the link-only
attachment is filtered out and produces zero writes, the summary counts one
attempted and one successful download), and the written file's name is the
sanitized title with the ".pdf" extension appended: "My_Paper_.pdf.pdf". -/
theorem download_scenario_amended :
    download_recent_documents (fun _ => some 10) 0
      (Except.ok [⟨"item1", ⟨some "My: Paper?.pdf", some "d0", none, none,
        none, none, none⟩⟩])
      (fun k => if k = "item1" then Except.ok
        [⟨"att1", ⟨none, none, none, some "attachment", some "imported_file",
          some "application/pdf", some "paper.pdf"⟩⟩,
         ⟨"att2", ⟨none, none, none, some "attachment", some "linked_url",
          some "text/html", none⟩⟩]
        else Except.ok [])
      (fun _ => some []) (fun _ => true) [] =
      (⟨1, 1, 0⟩, ["My_Paper_.pdf.pdf"]) ∧
    sanitize_filename "My: Paper?.pdf" ++ ".pdf" = "My_Paper_.pdf.pdf" := by
  constructor
  · decide
  · decide

/-- C9: `download_attachment` returns True exactly when the extension
computation, the content fetch and the file write all complete, and False
otherwise, never propagating an exception; each inner loop step counts one
attempted download and one success exactly when the call returned True; the
final summary's attempted count is the total number of listed attachments
over all selected entries, successes never exceed it, and the reported
failures are attempted minus successes. -/
theorem download_counts (parse : String → Option Int) (cutoff : Int)
    (fetched : Except String (List Item))
    (children : String → Except String (List Item))
    (fetch : String → Option (List UInt8)) (write : String → Bool)
    (dir : List String) (att parent : Item) (st : Nat × Nat × List String) :
    ((download_attachment fetch write att parent st.2.2).1 = true ↔
      ∃ ext content, get_file_extension att = some ext ∧
        fetch att.key = some content ∧
        write (generate_unique_filename
          (sanitize_filename (parent.data.title.getD "Untitled")) ext
          st.2.2) = true) ∧
    (attachmentStep fetch write parent st att).1 = st.1 + 1 ∧
    (attachmentStep fetch write parent st att).2.1 =
      (if (download_attachment fetch write att parent st.2.2).1
        then st.2.1 + 1 else st.2.1) ∧
    (download_recent_documents parse cutoff fetched children fetch write
      dir).1.totalDownloads =
      ((get_recent_items parse cutoff fetched).map fun it =>
        (get_item_attachments (children it.key)).length).sum ∧
    (download_recent_documents parse cutoff fetched children fetch write
      dir).1.successfulDownloads ≤
      (download_recent_documents parse cutoff fetched children fetch write
        dir).1.totalDownloads ∧
    (download_recent_documents parse cutoff fetched children fetch write
      dir).1.failedDownloads =
      (download_recent_documents parse cutoff fetched children fetch write
        dir).1.totalDownloads -
      (download_recent_documents parse cutoff fetched children fetch write
        dir).1.successfulDownloads := by
  obtain ⟨t1, t2⟩ := itemFold_counts fetch write children
    (get_recent_items parse cutoff fetched) (0, 0, dir)
  refine ⟨?_, rfl, rfl, ?_, ?_, rfl⟩
  · rw [download_attachment]
    cases hext : get_file_extension att with
    | none => simp
    | some e =>
      cases hf : fetch att.key with
      | none => simp
      | some content =>
        cases hw : write (generate_unique_filename
            (sanitize_filename (parent.data.title.getD "Untitled")) e
            st.2.2) with
        | false => simp [hw]
        | true => simp [hw]
  · rw [show (download_recent_documents parse cutoff fetched children fetch
      write dir).1.totalDownloads =
      ((get_recent_items parse cutoff fetched).foldl
        (itemStep fetch write children) (0, 0, dir)).1 from rfl, t1]
    exact Nat.zero_add _
  · exact t2 (Nat.le_refl 0)

/-- C9 witness: a run over one entry with one attachment whose fetch
fails — counted as attempted, not successful, one failure reported. -/
theorem download_counts_witness :
    ((download_attachment (fun _ => none) (fun _ => true)
      ⟨"a1", ⟨none, none, none, some "attachment", some "imported_file",
        some "application/pdf", none⟩⟩
      ⟨"p1", ⟨some "T", none, none, none, none, none, none⟩⟩
      ((0, 0, []) : Nat × Nat × List String).2.2).1 = true ↔
      ∃ ext content, get_file_extension
          ⟨"a1", ⟨none, none, none, some "attachment", some "imported_file",
            some "application/pdf", none⟩⟩ = some ext ∧
        (fun (_ : String) => (none : Option (List UInt8))) "a1" =
          some content ∧
        (fun (_ : String) => true) (generate_unique_filename
          (sanitize_filename "T") ext []) = true) ∧
    (download_recent_documents (fun _ => some 3) 0
      (Except.ok [⟨"p1", ⟨some "T", some "d", none, none, none, none,
        none⟩⟩])
      (fun _ => Except.ok [⟨"a1", ⟨none, none, none, some "attachment",
        some "imported_file", some "application/pdf", none⟩⟩])
      (fun _ => none) (fun _ => true) []).1.totalDownloads =
      (((get_recent_items (fun _ => some 3) 0
        (Except.ok [⟨"p1", ⟨some "T", some "d", none, none, none, none,
          none⟩⟩])).map fun _ =>
        (get_item_attachments (Except.ok [⟨"a1", ⟨none, none, none,
          some "attachment", some "imported_file", some "application/pdf",
          none⟩⟩])).length).sum) := by
  constructor
  · exact (download_counts (fun _ => some 3) 0
      (Except.ok [⟨"p1", ⟨some "T", some "d", none, none, none, none,
        none⟩⟩])
      (fun _ => Except.ok [⟨"a1", ⟨none, none, none, some "attachment",
        some "imported_file", some "application/pdf", none⟩⟩])
      (fun _ => none) (fun _ => true) []
      ⟨"a1", ⟨none, none, none, some "attachment", some "imported_file",
        some "application/pdf", none⟩⟩
      ⟨"p1", ⟨some "T", none, none, none, none, none, none⟩⟩
      (0, 0, [])).1
  · exact (download_counts (fun _ => some 3) 0
      (Except.ok [⟨"p1", ⟨some "T", some "d", none, none, none, none,
        none⟩⟩])
      (fun _ => Except.ok [⟨"a1", ⟨none, none, none, some "attachment",
        some "imported_file", some "application/pdf", none⟩⟩])
      (fun _ => none) (fun _ => true) []
      ⟨"a1", ⟨none, none, none, some "attachment", some "imported_file",
        some "application/pdf", none⟩⟩
      ⟨"p1", ⟨some "T", none, none, none, none, none, none⟩⟩
      (0, 0, [])).2.2.2.1

end Zotero
